import Mathlib

/-!
Verification development for the CinemaCatalog niche-recommendation engine
(`src/sql/file1.sql` schema, `src/sql/file3.sql` procedures/functions).

Shallow embedding conventions:
* A table is a `List` of row records; the database is a record of tables.
* SQL `DECIMAL` arithmetic is modelled as exact rational arithmetic (`ℚ`);
  the one place a value is stored into a narrower column —
  `Viewer.niche_affinity_score DECIMAL(4,2)` — is modelled by an explicit
  rounding to 2 fractional digits (`roundScale 2`, half away from zero,
  which is SQL Server's rounding mode).  The `DECIMAL(10,4)` casts inside
  `usp_CalculateNicheAffinity` keep at least 4 fractional digits as the
  spec requires; they are exact for the sums and products occurring here
  and are therefore modelled as exact rationals.
* Joins on a `PRIMARY KEY` column (`MediaAsset.asset_id`,
  `ExpertTag.tag_id`, `CrewRole.role_id`, `CrewMember.crew_id`) are
  modelled with `List.find?`, which is the join's semantics when the key
  is unique; an unmatched row is dropped, as with SQL `INNER JOIN`.
* `GROUP BY` is modelled by deduplicating the key column and filtering the
  joined rows per key; `TOP k ... ORDER BY` is `List.insertionSort` with
  the corresponding comparison followed by `List.take k`.  SQL leaves the
  relative order of `ORDER BY` ties unspecified; `insertionSort` picks one
  such order, and every theorem below only uses properties that hold for
  any tie order (sortedness, membership, length).
* Columns the engine never reads or writes (timestamps, comments,
  usernames, emails, flags, release years, ...) are omitted from the row
  records.
-/

/-- `Viewer` row (file1.sql): only the columns the engine touches.
`niche_affinity_score DECIMAL(4,2) NOT NULL DEFAULT 0.00` is the single
field `usp_CalculateNicheAffinity` writes. -/
structure Viewer where
  viewer_id : ℤ
  niche_affinity_score : ℚ
deriving DecidableEq

/-- `MediaAsset` row (file1.sql): `popularity_rank_index INT NOT NULL`. -/
structure MediaAsset where
  asset_id : ℤ
  title : String
  popularity_rank_index : ℤ
deriving DecidableEq

/-- `CrewMember` row (file1.sql). -/
structure CrewMember where
  crew_id : ℤ
  full_name : String
deriving DecidableEq

/-- `CrewRole` row (file1.sql): `category` is filtered on
`'Direction'`/`'Writing'` by `udf_GetCrewAffinitySuggestions`. -/
structure CrewRole where
  role_id : ℤ
  category : String
deriving DecidableEq

/-- `CrewCredit` row (file1.sql): composite key (crew, asset, role). -/
structure CrewCredit where
  crew_id : ℤ
  asset_id : ℤ
  role_id : ℤ
deriving DecidableEq

/-- `ExpertTag` row (file1.sql). -/
structure ExpertTag where
  tag_id : ℤ
  tag_name : String
deriving DecidableEq

/-- `ViewingLog` row (file1.sql): `critical_rating INT CHECK (1..10)`,
`complexity_score INT CHECK (1..5)`. -/
structure ViewingLog where
  log_id : ℤ
  viewer_id : ℤ
  asset_id : ℤ
  critical_rating : ℤ
  complexity_score : ℤ
deriving DecidableEq

/-- `ViewerTagValidation` row (file1.sql): composite key
(viewer, asset, tag), `agreement_intensity INT CHECK (1..5)`. -/
structure ViewerTagValidation where
  viewer_id : ℤ
  asset_id : ℤ
  tag_id : ℤ
  agreement_intensity : ℤ
deriving DecidableEq

/-- The CinemaCatalog_DB store: one list per table. -/
structure DB where
  viewers : List Viewer
  mediaAssets : List MediaAsset
  crewMembers : List CrewMember
  crewRoles : List CrewRole
  crewCredits : List CrewCredit
  expertTags : List ExpertTag
  viewingLogs : List ViewingLog
  viewerTagValidations : List ViewerTagValidation
deriving DecidableEq

/-- Rounding to `s` fractional digits, half away from zero: the rounding
SQL Server applies when a `DECIMAL` value is stored into a column of
smaller scale, e.g. the implicit cast to `DECIMAL(4,2)` when
`usp_CalculateNicheAffinity` assigns `Viewer.niche_affinity_score`. -/
def roundScale (s : ℕ) (q : ℚ) : ℚ :=
  if 0 ≤ q then (round (q * 10 ^ s) : ℤ) / 10 ^ s
  else -((round (-q * 10 ^ s) : ℤ)) / 10 ^ s

/-- Storing into `DECIMAL(4,2)`: round to 2 fractional digits. -/
def round2 (q : ℚ) : ℚ := roundScale 2 q

/-- The summand of `ViewerScores.TotalWeightedScore`
(file3.sql:460-467): `critical_rating * (popularity_rank_index / 100.0)
* (complexity_score / 5.0)`. -/
def weightedLog (l : ViewingLog) (a : MediaAsset) : ℚ :=
  (l.critical_rating : ℚ) * ((a.popularity_rank_index : ℚ) / 100)
    * ((l.complexity_score : ℚ) / 5)

/-- `ViewingLog L JOIN MediaAsset A ON L.asset_id = A.asset_id`,
restricted to one viewer (the `GROUP BY V.viewer_id` partition of the
`ViewerScores` CTE, file3.sql:457-477).  `asset_id` is the primary key of
`MediaAsset`, so the join is a `find?` lookup; a log whose asset is
missing drops out of the inner join. -/
def joinedLogs (db : DB) (vid : ℤ) : List (ViewingLog × MediaAsset) :=
  (db.viewingLogs.filter (fun l => l.viewer_id == vid)).filterMap
    (fun l => (db.mediaAssets.find? (fun a => a.asset_id == l.asset_id)).map
      (fun a => (l, a)))

/-- One row of the `ViewerScores` CTE (file3.sql:457-477). -/
structure ViewerScore where
  viewer_id : ℤ
  TotalWeightedScore : ℚ
  TotalLogs : ℕ
deriving DecidableEq

/-- The `ViewerScores` row for viewer id `vid`: `SUM` of the weighted
ratings and `COUNT(L.log_id)` over the viewer's joined log rows. -/
def viewerScoreRow (db : DB) (vid : ℤ) : ViewerScore :=
  ⟨vid, ((joinedLogs db vid).map (fun r => weightedLog r.1 r.2)).sum,
    (joinedLogs db vid).length⟩

/-- The contribution of one `Viewer` row to the `ViewerScores` CTE: a
viewer with no joined log rows produces no `GROUP BY` group, hence no
row. -/
def scoreRowOf (db : DB) (v : Viewer) : Option ViewerScore :=
  if (joinedLogs db v.viewer_id).isEmpty then none
  else some (viewerScoreRow db v.viewer_id)

/-- The `ViewerScores` CTE (file3.sql:457-477): `Viewer JOIN ViewingLog
JOIN MediaAsset GROUP BY viewer_id`. -/
def ViewerScores (db : DB) : List ViewerScore :=
  db.viewers.filterMap (scoreRowOf db)

/-- The effect of the `UPDATE ... FROM Viewer V JOIN ViewerScores S`
(file3.sql:479-491) on one `Viewer` row: a viewer with no matching score
row is left untouched; otherwise the `CASE` expression is stored, cast to
`DECIMAL(4,2)` (`round2`). -/
def scoreUpdate (scores : List ViewerScore) (v : Viewer) : Viewer :=
  match scores.find? (fun s => s.viewer_id == v.viewer_id) with
  | some s =>
    { v with niche_affinity_score :=
        round2 (if 0 < s.TotalLogs
          then s.TotalWeightedScore / (s.TotalLogs : ℚ) * 2
          else 0) }
  | none => v

/-- `usp_CalculateNicheAffinity` (file3.sql:451-494, the final `CREATE
PROCEDURE` after the preceding `DROP`): `UPDATE Viewer V SET
niche_affinity_score = CASE WHEN S.TotalLogs > 0 THEN
(S.TotalWeightedScore / S.TotalLogs) * 2.0 ELSE 0.00 END FROM Viewer V
JOIN ViewerScores S ON V.viewer_id = S.viewer_id`. -/
def usp_CalculateNicheAffinity (db : DB) : DB :=
  { db with viewers := db.viewers.map (scoreUpdate (ViewerScores db)) }

/-- Look up a viewer row by primary key. -/
def findViewer (db : DB) (vid : ℤ) : Option Viewer :=
  db.viewers.find? (fun v => v.viewer_id == vid)

/-- Modelled from the spec's words for claim C2 ("score(v) = average over
v's logs of rating * (popularity_rank_index/100) * (complexity_score/5),
multiplied by 2.0 and stored to 2 fractional digits"); to be compared
with the score `usp_CalculateNicheAffinity` stores. -/
def specNicheScore (rows : List (ViewingLog × MediaAsset)) : ℚ :=
  round2 ((rows.map (fun r => weightedLog r.1 r.2)).sum / rows.length * 2)

/-- The target viewer's strong validations: `WHERE viewer_id = @Target AND
agreement_intensity >= 4` over `ViewerTagValidation` (used for the
`TargetAffinities` CTE, file3.sql:507-514, and for
`udf_GetViewerStructuralBias`). -/
def strongRows (db : DB) (vid : ℤ) : List ViewerTagValidation :=
  db.viewerTagValidations.filter
    (fun x => x.viewer_id == vid && decide (4 ≤ x.agreement_intensity))

/-- The `TargetAffinities` CTE (file3.sql:507-514): the target's strong
tag ids.  It is a projection of rows keyed by (viewer, asset, tag), so the
same `tag_id` can occur once per asset it was validated on. -/
def TargetAffinities (db : DB) (target : ℤ) : List ℤ :=
  (strongRows db target).map (fun x => x.tag_id)

/-- `ViewerTagValidation VTV JOIN TargetAffinities TA ON VTV.tag_id =
TA.tag_id WHERE VTV.viewer_id <> @Target AND VTV.agreement_intensity >= 4`
(file3.sql:522-528).  Each strong validation row of another viewer is
paired with every occurrence of its tag in `TargetAffinities`. -/
def similarJoinRows (db : DB) (target : ℤ) : List ViewerTagValidation :=
  (db.viewerTagValidations.filter
      (fun x => x.viewer_id != target && decide (4 ≤ x.agreement_intensity))).flatMap
    (fun r => ((TargetAffinities db target).filter (fun t => t == r.tag_id)).map
      (fun _ => r))

/-- One output row of `udf_GetSimilarViewers`. -/
structure SimilarViewerRow where
  SimilarViewerID : ℤ
  SharedTagCount : ℕ
  AvgSharedIntensity : ℚ
deriving DecidableEq

theorem lexLE_total {α β γ : Type} [LinearOrder β] [LinearOrder γ]
    (f : α → β) (g : α → γ) (a b : α) :
    (f b < f a ∨ (f a = f b ∧ g b ≤ g a))
      ∨ (f a < f b ∨ (f b = f a ∧ g a ≤ g b)) := by
  rcases lt_trichotomy (f a) (f b) with h | h | h
  · exact Or.inr (Or.inl h)
  · rcases le_total (g a) (g b) with hg | hg
    · exact Or.inr (Or.inr ⟨h.symm, hg⟩)
    · exact Or.inl (Or.inr ⟨h, hg⟩)
  · exact Or.inl (Or.inl h)

theorem lexLE_trans {α β γ : Type} [LinearOrder β] [LinearOrder γ]
    (f : α → β) (g : α → γ) {a b c : α}
    (h1 : f b < f a ∨ (f a = f b ∧ g b ≤ g a))
    (h2 : f c < f b ∨ (f b = f c ∧ g c ≤ g b)) :
    f c < f a ∨ (f a = f c ∧ g c ≤ g a) := by
  rcases h1 with h1 | ⟨e1, l1⟩
  · rcases h2 with h2 | ⟨e2, _⟩
    · exact Or.inl (h2.trans h1)
    · exact Or.inl (e2 ▸ h1)
  · rcases h2 with h2 | ⟨e2, l2⟩
    · exact Or.inl (h2.trans_eq e1.symm)
    · exact Or.inr ⟨e1.trans e2, l2.trans l1⟩

/-- Comparison for `ORDER BY SharedTagCount DESC, AvgSharedIntensity
DESC` (file3.sql:531-533). -/
def similarLE (a b : SimilarViewerRow) : Prop :=
  b.SharedTagCount < a.SharedTagCount ∨
    (a.SharedTagCount = b.SharedTagCount ∧
      b.AvgSharedIntensity ≤ a.AvgSharedIntensity)

instance : DecidableRel similarLE := fun _ _ =>
  inferInstanceAs (Decidable (_ ∨ _))

instance : IsTotal SimilarViewerRow similarLE :=
  ⟨fun a b =>
    lexLE_total (fun r : SimilarViewerRow => r.SharedTagCount)
      (fun r : SimilarViewerRow => r.AvgSharedIntensity) a b⟩

instance : IsTrans SimilarViewerRow similarLE :=
  ⟨fun _ _ _ h1 h2 =>
    lexLE_trans (fun r : SimilarViewerRow => r.SharedTagCount)
      (fun r : SimilarViewerRow => r.AvgSharedIntensity) h1 h2⟩

/-- The `GROUP BY VTV.viewer_id` aggregation of `udf_GetSimilarViewers`
(file3.sql:516-530), before `TOP 5`: `COUNT(VTV.tag_id)` join rows and
`AVG(agreement_intensity)` per grouped viewer. -/
def similarGrouped (db : DB) (target : ℤ) : List SimilarViewerRow :=
  let rows := similarJoinRows db target
  ((rows.map (fun x => x.viewer_id)).dedup).map (fun w =>
    let g := rows.filter (fun x => x.viewer_id == w)
    ⟨w, g.length,
      ((g.map (fun x => (x.agreement_intensity : ℚ))).sum) / (g.length : ℚ)⟩)

/-- `udf_GetSimilarViewers` (file3.sql:501-535): `SELECT TOP 5 ... ORDER
BY SharedTagCount DESC, AvgSharedIntensity DESC`. -/
def udf_GetSimilarViewers (db : DB) (target : ℤ) : List SimilarViewerRow :=
  ((similarGrouped db target).insertionSort similarLE).take 5

/-- Modelled from the spec's words for claim C3: `sharedTagCount(w) =
|{tags in T that w also strongly validated}|`, each shared tag counted
once; to be compared with the `SharedTagCount` the function returns. -/
def distinctSharedTagCount (db : DB) (target w : ℤ) : ℕ :=
  (((TargetAffinities db target).dedup).filter
    (fun t => decide (t ∈ (strongRows db w).map (fun x => x.tag_id)))).length

/-- The count `udf_GetSimilarViewers` actually returns, in closed form:
each strong validation row of `w` contributes once per occurrence of its
tag in the target's strong-tag list (join-row counting, not distinct-tag
counting). -/
def sharedPairCount (db : DB) (target w : ℤ) : ℕ :=
  ((strongRows db w).map
    (fun r => (TargetAffinities db target).count r.tag_id)).sum

/-- One output row of `udf_GetViewerStructuralBias`. -/
structure BiasRow where
  tag_id : ℤ
  tag_name : String
  AverageIntensity : ℚ
  ValidationCount : ℕ
deriving DecidableEq

/-- Comparison for `ORDER BY AverageIntensity DESC, ValidationCount DESC`
(file3.sql:567-569). -/
def biasLE (a b : BiasRow) : Prop :=
  b.AverageIntensity < a.AverageIntensity ∨
    (a.AverageIntensity = b.AverageIntensity ∧
      b.ValidationCount ≤ a.ValidationCount)

instance : DecidableRel biasLE := fun _ _ =>
  inferInstanceAs (Decidable (_ ∨ _))

instance : IsTotal BiasRow biasLE :=
  ⟨fun a b =>
    lexLE_total (fun r : BiasRow => r.AverageIntensity)
      (fun r : BiasRow => r.ValidationCount) a b⟩

instance : IsTrans BiasRow biasLE :=
  ⟨fun _ _ _ h1 h2 =>
    lexLE_trans (fun r : BiasRow => r.AverageIntensity)
      (fun r : BiasRow => r.ValidationCount) h1 h2⟩

/-- The joined rows of `udf_GetViewerStructuralBias` (file3.sql:550-564):
the target's strong validations inner-joined to `ExpertTag` on the
primary key `tag_id`. -/
def biasJoinRows (db : DB) (target : ℤ) : List (ViewerTagValidation × ExpertTag) :=
  (strongRows db target).filterMap
    (fun v => (db.expertTags.find? (fun t => t.tag_id == v.tag_id)).map
      (fun t => (v, t)))

/-- The `GROUP BY V.tag_id, T.tag_name` aggregation of
`udf_GetViewerStructuralBias` (file3.sql:550-566), before `TOP 5`. -/
def biasGrouped (db : DB) (target : ℤ) : List BiasRow :=
  let rows := biasJoinRows db target
  ((rows.map (fun r => (r.1.tag_id, r.2.tag_name))).dedup).map (fun k =>
    let g := rows.filter (fun r => r.1.tag_id == k.1 && r.2.tag_name == k.2)
    ⟨k.1, k.2,
      ((g.map (fun r => (r.1.agreement_intensity : ℚ))).sum) / (g.length : ℚ),
      g.length⟩)

/-- `udf_GetViewerStructuralBias` (file3.sql:545-571): `SELECT TOP 5 ...
ORDER BY AverageIntensity DESC, ValidationCount DESC`. -/
def udf_GetViewerStructuralBias (db : DB) (target : ℤ) : List BiasRow :=
  ((biasGrouped db target).insertionSort biasLE).take 5

/-- One row of the `TopCrewAffinities` CTE (file3.sql:586-605). -/
structure TopCrewRow where
  crew_id : ℤ
  AvgHighRating : ℚ
deriving DecidableEq

/-- Comparison for `ORDER BY AvgHighRating DESC` (file3.sql:603-604). -/
def topCrewLE (a b : TopCrewRow) : Prop :=
  b.AvgHighRating ≤ a.AvgHighRating

instance : DecidableRel topCrewLE := fun _ _ =>
  inferInstanceAs (Decidable (_ ≤ _))

instance : IsTotal TopCrewRow topCrewLE :=
  ⟨fun a b => le_total b.AvgHighRating a.AvgHighRating⟩

instance : IsTrans TopCrewRow topCrewLE :=
  ⟨fun _ _ _ h1 h2 => h2.trans h1⟩

/-- The joined rows of `TopCrewAffinities` (file3.sql:586-602):
`ViewingLog VL JOIN CrewCredit CC ON VL.asset_id = CC.asset_id JOIN
CrewRole CR ON CC.role_id = CR.role_id WHERE VL.viewer_id = @Target AND
VL.critical_rating >= 8 AND CR.category IN ('Direction', 'Writing')`.
`CrewCredit` is a many-to-many join (flatMap); `role_id` is the primary
key of `CrewRole` (`find?`). -/
def topCrewJoinRows (db : DB) (target : ℤ) : List (ViewingLog × CrewCredit) :=
  (db.viewingLogs.filter
      (fun l => l.viewer_id == target && decide (8 ≤ l.critical_rating))).flatMap
    (fun l => (db.crewCredits.filter (fun cc => cc.asset_id == l.asset_id)).filterMap
      (fun cc => (db.crewRoles.find? (fun r => r.role_id == cc.role_id)).bind
        (fun r => if r.category == "Direction" || r.category == "Writing"
          then some (l, cc) else none)))

/-- The `TopCrewAffinities` CTE (file3.sql:586-605): `SELECT TOP 5
CC.crew_id, AVG(VL.critical_rating) GROUP BY CC.crew_id ORDER BY
AvgHighRating DESC`. -/
def TopCrewAffinities (db : DB) (target : ℤ) : List TopCrewRow :=
  let rows := topCrewJoinRows db target
  let grouped := ((rows.map (fun p => p.2.crew_id)).dedup).map (fun c =>
    let g := rows.filter (fun p => p.2.crew_id == c)
    TopCrewRow.mk c
      (((g.map (fun p => (p.1.critical_rating : ℚ))).sum) / (g.length : ℚ)))
  (grouped.insertionSort topCrewLE).take 5

/-- The `AllCrewAssets` CTE (file3.sql:607-615): `CrewCredit CC JOIN
TopCrewAffinities TCA ON CC.crew_id = TCA.crew_id`, projected to
`(asset_id, crew_id)`.  `TopCrewAffinities` has one row per crew id
(grouped), so the join matches each credit at most once. -/
def AllCrewAssets (db : DB) (target : ℤ) : List (ℤ × ℤ) :=
  (db.crewCredits.filter
      (fun cc => (TopCrewAffinities db target).any (fun t => t.crew_id == cc.crew_id))).map
    (fun cc => (cc.asset_id, cc.crew_id))

/-- The final joined rows of `udf_GetCrewAffinitySuggestions`
(file3.sql:617-628): `AllCrewAssets ACA JOIN MediaAsset A ON ACA.asset_id
= A.asset_id JOIN CrewMember C ON ACA.crew_id = C.crew_id WHERE
ACA.asset_id NOT IN (SELECT asset_id FROM ViewingLog WHERE viewer_id =
@Target)`.  Both joined tables are keyed on their primary key (`find?`). -/
def crewFinalRows (db : DB) (target : ℤ) : List (MediaAsset × CrewMember) :=
  ((AllCrewAssets db target).filterMap
      (fun p => (db.mediaAssets.find? (fun a => a.asset_id == p.1)).bind
        (fun a => (db.crewMembers.find? (fun c => c.crew_id == p.2)).map
          (fun c => (a, c))))).filter
    (fun r => !(db.viewingLogs.any
      (fun l => l.viewer_id == target && l.asset_id == r.1.asset_id)))

/-- A `GROUP BY A.asset_id, A.title, C.full_name` group of the final
select of `udf_GetCrewAffinitySuggestions`, carrying the ordering key
`MIN(A.popularity_rank_index)` (file3.sql:629-633). -/
structure CrewSuggestionGroup where
  asset_id : ℤ
  title : String
  CrewMemberName : String
  minPopRank : ℤ
deriving DecidableEq

/-- One output row of `udf_GetCrewAffinitySuggestions` (the projected
columns of file3.sql:617-620). -/
structure CrewSuggestion where
  asset_id : ℤ
  title : String
  CrewMemberName : String
deriving DecidableEq

/-- Comparison for `ORDER BY MIN(A.popularity_rank_index) ASC`
(file3.sql:631-633). -/
def crewSuggestionLE (a b : CrewSuggestionGroup) : Prop :=
  a.minPopRank ≤ b.minPopRank

instance : DecidableRel crewSuggestionLE := fun _ _ =>
  inferInstanceAs (Decidable (_ ≤ _))

instance : IsTotal CrewSuggestionGroup crewSuggestionLE :=
  ⟨fun a b => le_total a.minPopRank b.minPopRank⟩

instance : IsTrans CrewSuggestionGroup crewSuggestionLE :=
  ⟨fun _ _ _ h1 h2 => h1.trans h2⟩

/-- The grouped rows of `udf_GetCrewAffinitySuggestions`
(file3.sql:617-633): one group per `(asset_id, title, full_name)`, with
`MIN(A.popularity_rank_index)` as ordering key. -/
def crewSuggestionGroups (db : DB) (target : ℤ) : List CrewSuggestionGroup :=
  let rows := crewFinalRows db target
  ((rows.map (fun r => (r.1.asset_id, r.1.title, r.2.full_name))).dedup).map
    (fun k =>
      let g := rows.filter (fun r =>
        r.1.asset_id == k.1 && r.1.title == k.2.1 && r.2.full_name == k.2.2)
      ⟨k.1, k.2.1, k.2.2,
        ((g.map (fun r => r.1.popularity_rank_index)).min?).getD 0⟩)

/-- `udf_GetCrewAffinitySuggestions` (file3.sql:580-635): `SELECT TOP 10
A.asset_id, A.title, C.full_name ... ORDER BY
MIN(A.popularity_rank_index) ASC`. -/
def udf_GetCrewAffinitySuggestions (db : DB) (target : ℤ) : List CrewSuggestion :=
  (((crewSuggestionGroups db target).insertionSort crewSuggestionLE).take 10).map
    (fun r => ⟨r.asset_id, r.title, r.CrewMemberName⟩)

/-- The `popularity_rank_index` of the asset row with primary key `aid`
(`0` default when absent; every asset mentioned below exists). -/
def assetIdxD (db : DB) (aid : ℤ) : ℤ :=
  ((db.mediaAssets.find? (fun a => a.asset_id == aid)).map
    (fun a => a.popularity_rank_index)).getD 0

/-- The joined rows of the `SimilarViewerRecs` CTE (file3.sql:649-662):
`udf_GetSimilarViewers(@Target) SV JOIN ViewingLog VL ON
SV.SimilarViewerID = VL.viewer_id WHERE VL.critical_rating >= 7`. -/
def svrJoinRows (db : DB) (target : ℤ) : List (SimilarViewerRow × ViewingLog) :=
  (udf_GetSimilarViewers db target).flatMap (fun sv =>
    (db.viewingLogs.filter (fun l =>
      l.viewer_id == sv.SimilarViewerID && decide (7 ≤ l.critical_rating))).map
      (fun l => (sv, l)))

/-- The `GROUP BY VL.asset_id` aggregation of the `SimilarViewerRecs`
CTE (file3.sql:649-662), with `AVG(VL.critical_rating *
SV.SharedTagCount)` as `CollaborativeScore`. -/
def SimilarViewerRecs (db : DB) (target : ℤ) : List (ℤ × ℚ) :=
  (((svrJoinRows db target).map (fun r => r.2.asset_id)).dedup).map (fun a =>
    let g := (svrJoinRows db target).filter (fun r => r.2.asset_id == a)
    (a, ((g.map (fun r =>
      (r.2.critical_rating : ℚ) * (r.1.SharedTagCount : ℚ))).sum) / (g.length : ℚ)))

/-- The joined rows of the `ContentBiasRecs` CTE (file3.sql:665-678):
`udf_GetViewerStructuralBias(@Target) SB JOIN ViewerTagValidation VTV ON
SB.tag_id = VTV.tag_id WHERE VTV.viewer_id = @Target`. -/
def cbrJoinRows (db : DB) (target : ℤ) : List ViewerTagValidation :=
  (udf_GetViewerStructuralBias db target).flatMap (fun sb =>
    db.viewerTagValidations.filter (fun v =>
      v.tag_id == sb.tag_id && v.viewer_id == target))

/-- The `GROUP BY VTV.asset_id` aggregation of the `ContentBiasRecs` CTE
(file3.sql:665-678), with `SUM(VTV.agreement_intensity)` as
`ContentMatchScore`. -/
def ContentBiasRecs (db : DB) (target : ℤ) : List (ℤ × ℚ) :=
  (((cbrJoinRows db target).map (fun v => v.asset_id)).dedup).map (fun a =>
    (a, (((cbrJoinRows db target).filter (fun v => v.asset_id == a)).map
      (fun v => (v.agreement_intensity : ℚ))).sum))

/-- One row of the `CombinedRecommendations` CTE (file3.sql:681-699). -/
structure CombinedRec where
  asset_id : ℤ
  title : String
  popularity_rank_index : ℤ
  FinalRecScore : ℚ
deriving DecidableEq

/-- The `CombinedRecommendations` CTE (file3.sql:681-699): `MediaAsset A
LEFT JOIN SimilarViewerRecs SVR LEFT JOIN ContentBiasRecs CBR` with
`FinalRecScore = ISNULL(SVR.CollaborativeScore * 0.6, 0) +
ISNULL(CBR.ContentMatchScore * 0.4, 0)`, excluding assets the target has
logged and assets matched by neither CTE.  Both CTEs are grouped by
`asset_id`, so the left joins are `find?` lookups. -/
def CombinedRecommendations (db : DB) (target : ℤ) : List CombinedRec :=
  let svr := SimilarViewerRecs db target
  let cbr := ContentBiasRecs db target
  db.mediaAssets.filterMap (fun a =>
    if db.viewingLogs.any (fun l => l.viewer_id == target && l.asset_id == a.asset_id)
    then none
    else
      match svr.find? (fun p => p.1 == a.asset_id),
            cbr.find? (fun p => p.1 == a.asset_id) with
      | none, none => none
      | os, oc =>
        some ⟨a.asset_id, a.title, a.popularity_rank_index,
          ((os.map (fun p => p.2 * (6 / 10))).getD 0)
            + ((oc.map (fun p => p.2 * (4 / 10))).getD 0)⟩)

/-- `MAX(FinalRecScore) OVER ()` (file3.sql:705): the window maximum over
all `CombinedRecommendations` rows (computed before `TOP 20`). -/
def maxFinalScore (db : DB) (target : ℤ) : ℚ :=
  (((CombinedRecommendations db target).map
    (fun c => c.FinalRecScore)).foldr max 0)

/-- One output row of `udf_GetNicheRecommendations`. -/
structure NicheRec where
  asset_id : ℤ
  title : String
  RelatabilityScore : ℚ
deriving DecidableEq

/-- Comparison for `ORDER BY FinalRecScore DESC, popularity_rank_index
ASC` (file3.sql:708-710). -/
def nicheRecLE (a b : CombinedRec) : Prop :=
  b.FinalRecScore < a.FinalRecScore ∨
    (a.FinalRecScore = b.FinalRecScore ∧
      a.popularity_rank_index ≤ b.popularity_rank_index)

instance : DecidableRel nicheRecLE := fun _ _ =>
  inferInstanceAs (Decidable (_ ∨ _))

instance : IsTotal CombinedRec nicheRecLE :=
  ⟨fun a b =>
    lexLE_total (fun r : CombinedRec => r.FinalRecScore)
      (fun r : CombinedRec => OrderDual.toDual r.popularity_rank_index) a b⟩

instance : IsTrans CombinedRec nicheRecLE :=
  ⟨fun _ _ _ h1 h2 =>
    lexLE_trans (fun r : CombinedRec => r.FinalRecScore)
      (fun r : CombinedRec => OrderDual.toDual r.popularity_rank_index) h1 h2⟩

/-- `udf_GetNicheRecommendations` (file3.sql:643-711): `SELECT TOP 20
asset_id, title, (FinalRecScore / MAX(FinalRecScore) OVER ()) * 100 AS
RelatabilityScore FROM CombinedRecommendations ORDER BY FinalRecScore
DESC, popularity_rank_index ASC`. -/
def udf_GetNicheRecommendations (db : DB) (target : ℤ) : List NicheRec :=
  ((((CombinedRecommendations db target).insertionSort nicheRecLE).take 20).map
    (fun c => ⟨c.asset_id, c.title,
      c.FinalRecScore / maxFinalScore db target * 100⟩))

/-!
Concrete store states used to instantiate the theorems below.
-/

/-- One viewer, one asset (`popularity_rank_index` 30), one log
(rating 9, complexity 4): the spec's concrete ScoreEngine scenario. -/
def dbScoreA : DB :=
  ⟨[⟨1, 0⟩], [⟨10, "A", 30⟩], [], [], [], [], [⟨1, 1, 10, 9, 4⟩], []⟩

/-- One viewer whose stored score is `5.00` and who has no `ViewingLog`
rows (e.g. their logs were deleted after an earlier recomputation). -/
def dbPrevScore : DB := ⟨[⟨1, 5⟩], [], [], [], [], [], [], []⟩

/-- One viewer with the `0.00` column default and no `ViewingLog` rows. -/
def dbZeroLogs : DB := ⟨[⟨1, 0⟩], [], [], [], [], [], [], []⟩

/-- One viewer with stored score `7.00` and no `ViewingLog` rows. -/
def dbFrame : DB := ⟨[⟨1, 7⟩], [], [], [], [], [], [], []⟩

/-- Viewer 1 strongly validated tag 1 on one asset; viewer 2 strongly
validated the same tag on two different assets. -/
def dbSim : DB :=
  ⟨[], [], [], [], [], [], [],
    [⟨1, 10, 1, 5⟩, ⟨2, 10, 1, 5⟩, ⟨2, 11, 1, 5⟩]⟩

/-- Two viewers, two assets; viewer 1 logged asset 10 and strongly
validated tag 1 on it; viewer 2 logged asset 11 with rating 9 and
strongly validated tag 1 on it.  Gives viewer 1 a non-empty
recommendation list (asset 11). -/
def dbRec : DB :=
  ⟨[⟨1, 0⟩, ⟨2, 0⟩], [⟨10, "A", 30⟩, ⟨11, "B", 25⟩],
    [], [], [], [⟨1, "T"⟩],
    [⟨1, 1, 10, 9, 4⟩, ⟨2, 2, 11, 9, 3⟩],
    [⟨1, 10, 1, 5⟩, ⟨2, 11, 1, 5⟩]⟩

/-- Viewer 1 strongly validated tag 1 (intensity 5) on asset 10. -/
def dbBias : DB :=
  ⟨[], [], [], [], [], [⟨1, "T"⟩], [], [⟨1, 10, 1, 5⟩]⟩

/-- Crew-suggestion scenario: viewer 1 rated asset 10 (by director 1)
with 9; director 1 also made assets 11 and 12, unseen by viewer 1. -/
def dbCrew : DB :=
  ⟨[⟨1, 0⟩], [⟨10, "A", 30⟩, ⟨11, "B", 25⟩, ⟨12, "C", 40⟩],
    [⟨1, "D"⟩], [⟨1, "Direction"⟩],
    [⟨1, 10, 1⟩, ⟨1, 11, 1⟩, ⟨1, 12, 1⟩], [],
    [⟨1, 1, 10, 9, 4⟩], []⟩

/-!
The Batteries library marks the `Rat` field operations `@[irreducible]`
for `simp`-hygiene; the closed computations below evaluate them, so their
reducibility is restored locally.
-/

attribute [local semireducible] Rat.mul Rat.add Rat.sub Rat.inv

/-!
ScoreEngine lemmas.
-/

theorem scoreUpdate_viewer_id (S : List ViewerScore) (v : Viewer) :
    (scoreUpdate S v).viewer_id = v.viewer_id := by
  unfold scoreUpdate
  cases S.find? (fun s => s.viewer_id == v.viewer_id) <;> rfl

theorem joinedLogs_set_viewers (db : DB) (V : List Viewer) (vid : ℤ) :
    joinedLogs { db with viewers := V } vid = joinedLogs db vid := rfl

theorem findViewer_usp (db : DB) (vid : ℤ) :
    findViewer (usp_CalculateNicheAffinity db) vid
      = (findViewer db vid).map (scoreUpdate (ViewerScores db)) := by
  unfold findViewer usp_CalculateNicheAffinity
  show (db.viewers.map (scoreUpdate (ViewerScores db))).find?
      (fun v => v.viewer_id == vid) = _
  rw [List.find?_map]
  have hp : ((fun v : Viewer => v.viewer_id == vid) ∘ scoreUpdate (ViewerScores db))
      = (fun v : Viewer => v.viewer_id == vid) := by
    funext v
    simp [Function.comp, scoreUpdate_viewer_id]
  rw [hp]

theorem mem_ViewerScores (db : DB) {s : ViewerScore}
    (hs : s ∈ ViewerScores db) :
    joinedLogs db s.viewer_id ≠ [] ∧ s = viewerScoreRow db s.viewer_id := by
  unfold ViewerScores at hs
  obtain ⟨v, _, hv⟩ := List.mem_filterMap.mp hs
  unfold scoreRowOf at hv
  cases hne : (joinedLogs db v.viewer_id).isEmpty with
  | true => rw [hne] at hv; simp at hv
  | false =>
    rw [hne] at hv
    simp only [Bool.false_eq_true, if_false, Option.some.injEq] at hv
    have hid : s.viewer_id = v.viewer_id := by rw [← hv]; rfl
    rw [hid]
    refine ⟨fun h => ?_, hv.symm⟩
    rw [h] at hne
    simp at hne

theorem find?_ViewerScores_eq_none (db : DB) (vid : ℤ)
    (h : db.viewingLogs.filter (fun l => l.viewer_id == vid) = []) :
    (ViewerScores db).find? (fun s => s.viewer_id == vid) = none := by
  rw [List.find?_eq_none]
  intro s hs hp
  obtain ⟨hne, _⟩ := mem_ViewerScores db hs
  have hid : s.viewer_id = vid := by simpa using hp
  apply hne
  rw [hid]
  unfold joinedLogs
  rw [h]
  rfl

theorem usp_frame (db : DB) (vid : ℤ)
    (h : db.viewingLogs.filter (fun l => l.viewer_id == vid) = []) :
    findViewer (usp_CalculateNicheAffinity db) vid = findViewer db vid := by
  rw [findViewer_usp]
  cases hv : findViewer db vid with
  | none => rfl
  | some v =>
    have hid : v.viewer_id = vid := by
      have := List.find?_some hv
      simpa using this
    simp only [Option.map_some']
    unfold scoreUpdate
    rw [hid, find?_ViewerScores_eq_none db vid h]

theorem find?_filterMap_scoreRow (db : DB) (vid : ℤ)
    (hne : joinedLogs db vid ≠ []) :
    ∀ l : List Viewer, (∃ v ∈ l, v.viewer_id = vid) →
      (l.filterMap (scoreRowOf db)).find? (fun s => s.viewer_id == vid)
        = some (viewerScoreRow db vid) := by
  intro l
  induction l with
  | nil => rintro ⟨v, hv, _⟩; simp at hv
  | cons v t ih =>
    rintro ⟨w, hw, hwid⟩
    by_cases hvid : v.viewer_id = vid
    · have hrow : scoreRowOf db v = some (viewerScoreRow db vid) := by
        unfold scoreRowOf
        rw [hvid]
        simp [List.isEmpty_iff, hne]
      rw [List.filterMap_cons_some hrow]
      have hp : ((viewerScoreRow db vid).viewer_id == vid) = true := by
        simp [viewerScoreRow]
      simp only [List.find?_cons, hp]
    · have hwt : ∃ u ∈ t, u.viewer_id = vid := by
        rcases List.mem_cons.mp hw with h | h
        · exact absurd (h ▸ hwid) hvid
        · exact ⟨w, h, hwid⟩
      cases hrow : scoreRowOf db v with
      | none =>
        rw [List.filterMap_cons_none hrow]
        exact ih hwt
      | some s =>
        have hsid : s.viewer_id = v.viewer_id := by
          unfold scoreRowOf at hrow
          cases hE : (joinedLogs db v.viewer_id).isEmpty with
          | true => rw [hE] at hrow; simp at hrow
          | false =>
            rw [hE] at hrow
            simp only [Bool.false_eq_true, if_false, Option.some.injEq] at hrow
            rw [← hrow]; rfl
        rw [List.filterMap_cons_some hrow]
        have hp : (s.viewer_id == vid) = false := by
          simp [hsid, hvid]
        simp only [List.find?_cons, hp]
        exact ih hwt

theorem find?_ViewerScores_eq_some (db : DB) (vid : ℤ)
    (hne : joinedLogs db vid ≠ []) (hv : ∃ v ∈ db.viewers, v.viewer_id = vid) :
    (ViewerScores db).find? (fun s => s.viewer_id == vid)
      = some (viewerScoreRow db vid) :=
  find?_filterMap_scoreRow db vid hne db.viewers hv

theorem DB_ext {a b : DB} (h1 : a.viewers = b.viewers)
    (h2 : a.mediaAssets = b.mediaAssets) (h3 : a.crewMembers = b.crewMembers)
    (h4 : a.crewRoles = b.crewRoles) (h5 : a.crewCredits = b.crewCredits)
    (h6 : a.expertTags = b.expertTags) (h7 : a.viewingLogs = b.viewingLogs)
    (h8 : a.viewerTagValidations = b.viewerTagValidations) : a = b := by
  cases a
  cases b
  simp_all

theorem scoreRowOf_usp (db : DB) :
    scoreRowOf (usp_CalculateNicheAffinity db) = scoreRowOf db := rfl

theorem ViewerScores_usp (db : DB) :
    ViewerScores (usp_CalculateNicheAffinity db) = ViewerScores db := by
  unfold ViewerScores
  rw [scoreRowOf_usp]
  rw [show (usp_CalculateNicheAffinity db).viewers
      = db.viewers.map (scoreUpdate (ViewerScores db)) from rfl]
  rw [List.filterMap_map]
  congr 1
  funext v
  show scoreRowOf db (scoreUpdate (ViewerScores db) v) = scoreRowOf db v
  unfold scoreRowOf
  rw [scoreUpdate_viewer_id]

theorem scoreUpdate_idem (S : List ViewerScore) (v : Viewer) :
    scoreUpdate S (scoreUpdate S v) = scoreUpdate S v := by
  cases h : S.find? (fun s => s.viewer_id == v.viewer_id) with
  | none => simp [scoreUpdate, h]
  | some s => simp [scoreUpdate, h]

/-- C6: `recalculateNicheAffinity()` is idempotent — running
`usp_CalculateNicheAffinity` twice over unchanged
`ViewingLog`/`MediaAsset`/`Viewer` data produces the same store state
(hence the same stored `niche_affinity_score` for every viewer) as
running it once. -/
theorem claim_C6 : ∀ db : DB,
    usp_CalculateNicheAffinity (usp_CalculateNicheAffinity db)
      = usp_CalculateNicheAffinity db := by
  intro db
  apply DB_ext <;> try rfl
  rw [show (usp_CalculateNicheAffinity (usp_CalculateNicheAffinity db)).viewers
      = (usp_CalculateNicheAffinity db).viewers.map
          (scoreUpdate (ViewerScores (usp_CalculateNicheAffinity db))) from rfl]
  rw [ViewerScores_usp db]
  rw [show (usp_CalculateNicheAffinity db).viewers
      = db.viewers.map (scoreUpdate (ViewerScores db)) from rfl]
  rw [List.map_map]
  congr 1
  funext v
  exact scoreUpdate_idem (ViewerScores db) v

/-- C9: `usp_CalculateNicheAffinity` never writes the `Viewer` row of a
viewer with zero `ViewingLog` rows — after a run that viewer's row (in
particular its stored `niche_affinity_score`) is exactly what it was
before the run; the `0.00` default is observed only because it was never
overwritten. -/
theorem claim_C9 : ∀ (db : DB) (vid : ℤ),
    db.viewingLogs.filter (fun l => l.viewer_id == vid) = [] →
    findViewer (usp_CalculateNicheAffinity db) vid = findViewer db vid :=
  fun db vid h => usp_frame db vid h

theorem claim_C9_witness :
    dbFrame.viewingLogs.filter (fun l => l.viewer_id == 1) = [] ∧
    findViewer (usp_CalculateNicheAffinity dbFrame) 1 = findViewer dbFrame 1 :=
  ⟨by decide, claim_C9 dbFrame 1 (by decide)⟩

/-- C1 counterexample: in a store where viewer 1 has zero `ViewingLog`
rows but a stored score of `5.00`, `usp_CalculateNicheAffinity` does not
set the score to `0.00` — the claim "sets that viewer's stored
niche_affinity_score to exactly 0.00" fails at this input. -/
theorem claim_C1_counterexample :
    dbPrevScore.viewingLogs.filter (fun l => l.viewer_id == 1) = [] ∧
    (findViewer (usp_CalculateNicheAffinity dbPrevScore) 1).map
      (fun v => v.niche_affinity_score) ≠ some 0 := by
  exact ⟨by decide, by decide⟩

/-- C1 (amended): for every viewer with zero `ViewingLog` rows whose
stored `niche_affinity_score` is `0.00` (as with the column default),
running `usp_CalculateNicheAffinity` leaves the stored score exactly
`0.00`; in general the procedure leaves zero-log viewers' scores
unchanged rather than assigning `0.00`. -/
theorem claim_C1 : ∀ (db : DB) (vid : ℤ) (v : Viewer),
    findViewer db vid = some v →
    db.viewingLogs.filter (fun l => l.viewer_id == vid) = [] →
    v.niche_affinity_score = 0 →
    (findViewer (usp_CalculateNicheAffinity db) vid).map
      (fun w => w.niche_affinity_score) = some 0 := by
  intro db vid v hv h hz
  rw [usp_frame db vid h, hv]
  simp [hz]

theorem claim_C1_witness :
    findViewer dbZeroLogs 1 = some ⟨1, 0⟩ ∧
    dbZeroLogs.viewingLogs.filter (fun l => l.viewer_id == 1) = [] ∧
    (findViewer (usp_CalculateNicheAffinity dbZeroLogs) 1).map
      (fun w => w.niche_affinity_score) = some 0 :=
  ⟨by decide, by decide, claim_C1 dbZeroLogs 1 ⟨1, 0⟩ (by decide) (by decide) rfl⟩

/-- C2: for every viewer with at least one (asset-joined) `ViewingLog`
row, `usp_CalculateNicheAffinity` stores the average over the viewer's
logs of `rating * (popularity_rank_index/100) * (complexity_score/5)`,
multiplied by `2.0` and stored to 2 fractional digits
(`specNicheScore`). -/
theorem claim_C2 : ∀ (db : DB) (vid : ℤ) (v : Viewer),
    findViewer db vid = some v →
    joinedLogs db vid ≠ [] →
    findViewer (usp_CalculateNicheAffinity db) vid
      = some { v with niche_affinity_score := specNicheScore (joinedLogs db vid) } := by
  intro db vid v hv hne
  rw [findViewer_usp, hv]
  simp only [Option.map_some']
  have hid : v.viewer_id = vid := by simpa using List.find?_some hv
  have hmem : v ∈ db.viewers := List.mem_of_find?_eq_some hv
  unfold scoreUpdate
  rw [hid, find?_ViewerScores_eq_some db vid hne ⟨v, hmem, hid⟩]
  dsimp only [viewerScoreRow]
  have hpos : 0 < (joinedLogs db vid).length := List.length_pos.mpr hne
  rw [if_pos hpos]
  rfl

/-- C2 witness: the spec's concrete scenario — one log with rating 9,
`popularity_rank_index` 30, complexity 4 — stores exactly
`4.32 = 432/100`. -/
theorem claim_C2_witness :
    findViewer dbScoreA 1 = some ⟨1, 0⟩ ∧ joinedLogs dbScoreA 1 ≠ [] ∧
    specNicheScore (joinedLogs dbScoreA 1) = 432 / 100 ∧
    findViewer (usp_CalculateNicheAffinity dbScoreA) 1
      = some { Viewer.mk 1 0 with
          niche_affinity_score := specNicheScore (joinedLogs dbScoreA 1) } :=
  ⟨by decide, by decide, by decide,
    claim_C2 dbScoreA 1 ⟨1, 0⟩ (by decide) (by decide)⟩

/-!
SimilarityEngine lemmas.
-/

theorem length_filter_flatMap {α β : Type} (l : List α) (f : α → List β)
    (p : β → Bool) :
    ((l.flatMap f).filter p).length
      = (l.map (fun a => ((f a).filter p).length)).sum := by
  induction l with
  | nil => rfl
  | cons a t ih => simp [List.flatMap_cons, List.filter_append, ih]

theorem sum_map_ite_eq_sum_filter {α : Type} (l : List α) (p : α → Bool)
    (h : α → ℕ) :
    (l.map (fun a => if p a then h a else 0)).sum
      = ((l.filter p).map h).sum := by
  induction l with
  | nil => rfl
  | cons a t ih =>
    by_cases hp : p a <;> simp [List.filter_cons, hp, ih]

theorem mem_similarJoinRows (db : DB) (target : ℤ) {r : ViewerTagValidation}
    (h : r ∈ similarJoinRows db target) :
    r ∈ db.viewerTagValidations.filter
      (fun x => x.viewer_id != target && decide (4 ≤ x.agreement_intensity)) := by
  unfold similarJoinRows at h
  obtain ⟨x, hx, hr⟩ := List.mem_flatMap.mp h
  obtain ⟨t, _, hteq⟩ := List.mem_map.mp hr
  rwa [← hteq]

theorem similar_strong_filter (db : DB) (target w : ℤ) (hwt : w ≠ target) :
    (db.viewerTagValidations.filter
        (fun x => x.viewer_id != target && decide (4 ≤ x.agreement_intensity))).filter
      (fun x => x.viewer_id == w) = strongRows db w := by
  rw [List.filter_filter]
  unfold strongRows
  apply List.filter_congr
  intro x _
  by_cases hx : x.viewer_id = w
  · have hxt : x.viewer_id ≠ target := by rw [hx]; exact hwt
    simp [hx, hxt, hwt]
  · have hb : (x.viewer_id == w) = false := by simp [hx]
    rw [hb]
    simp

theorem length_filter_similarJoinRows (db : DB) (target w : ℤ)
    (hwt : w ≠ target) :
    ((similarJoinRows db target).filter (fun x => x.viewer_id == w)).length
      = sharedPairCount db target w := by
  unfold similarJoinRows sharedPairCount
  rw [length_filter_flatMap]
  have hstep : ∀ r : ViewerTagValidation,
      ((((TargetAffinities db target).filter (fun t => t == r.tag_id)).map
          (fun _ => r)).filter (fun x => x.viewer_id == w)).length
        = if r.viewer_id == w
            then (TargetAffinities db target).count r.tag_id else 0 := by
    intro r
    by_cases hp : (r.viewer_id == w) = true
    · rw [if_pos hp]
      rw [List.filter_eq_self.mpr]
      · rw [List.length_map, List.count_eq_countP, List.countP_eq_length_filter]
      · intro x hx
        obtain ⟨t, _, ht⟩ := List.mem_map.mp hx
        rw [← ht]
        exact hp
    · rw [if_neg hp]
      rw [List.filter_eq_nil_iff.mpr]
      · rfl
      · intro x hx
        obtain ⟨t, _, ht⟩ := List.mem_map.mp hx
        rw [← ht]
        exact hp
  rw [List.map_congr_left (fun r _ => hstep r)]
  rw [sum_map_ite_eq_sum_filter]
  rw [similar_strong_filter db target w hwt]

theorem mem_udfSimilar_grouped (db : DB) (target : ℤ) {row : SimilarViewerRow}
    (h : row ∈ udf_GetSimilarViewers db target) :
    row ∈ similarGrouped db target := by
  unfold udf_GetSimilarViewers at h
  exact (List.perm_insertionSort similarLE _).mem_iff.mp (List.take_subset _ _ h)

/-- C3 counterexample: in `dbSim`, viewer 2 strongly validated the single
shared tag on two different assets; the returned `SharedTagCount` is 2,
while the cardinality of the set of shared tags is 1 — the claim's
"each shared tag counted once" fails at this input. -/
theorem claim_C3_counterexample :
    TargetAffinities dbSim 1 ≠ [] ∧
    (⟨2, 2, 5⟩ : SimilarViewerRow) ∈ udf_GetSimilarViewers dbSim 1 ∧
    distinctSharedTagCount dbSim 1 2 = 1 ∧ (2 : ℕ) ≠ 1 := by
  exact ⟨by decide, by decide, by decide, by decide⟩

/-- C3 (amended): for every target viewer with non-empty strong-tag list
`T`, every returned entry's `SharedTagCount` equals the number of
join-row pairs — each strong validation row of the entry's viewer
contributes once per occurrence of its tag in `T` (`sharedPairCount`), so
a tag validated by that viewer on several assets is counted once per
asset, not once. -/
theorem claim_C3 : ∀ (db : DB) (target : ℤ) (row : SimilarViewerRow),
    TargetAffinities db target ≠ [] →
    row ∈ udf_GetSimilarViewers db target →
    row.SharedTagCount = sharedPairCount db target row.SimilarViewerID := by
  intro db target row _ hrow
  have hg := mem_udfSimilar_grouped db target hrow
  unfold similarGrouped at hg
  obtain ⟨w, hw, hrw⟩ := List.mem_map.mp hg
  obtain ⟨r, hr, hrid⟩ := List.mem_map.mp (List.mem_dedup.mp hw)
  have hrothers := mem_similarJoinRows db target hr
  have hwt : w ≠ target := by
    have hp := (List.mem_filter.mp hrothers).2
    have := (Bool.and_elim_left hp)
    rw [hrid] at this
    simpa using this
  rw [← hrw]
  exact length_filter_similarJoinRows db target w hwt

theorem claim_C3_witness :
    TargetAffinities dbSim 1 ≠ [] ∧
    (⟨2, 2, 5⟩ : SimilarViewerRow) ∈ udf_GetSimilarViewers dbSim 1 ∧
    (2 : ℕ) = sharedPairCount dbSim 1 2 :=
  ⟨by decide, by decide, claim_C3 dbSim 1 ⟨2, 2, 5⟩ (by decide) (by decide)⟩

/-!
BiasProfiler lemmas.
-/

theorem sum_div_length_bounds (l : List ℚ) (lo hi : ℚ) (hne : l ≠ [])
    (h : ∀ x ∈ l, lo ≤ x ∧ x ≤ hi) :
    lo ≤ l.sum / l.length ∧ l.sum / l.length ≤ hi := by
  have hlen : 0 < (l.length : ℚ) := by
    exact_mod_cast List.length_pos.mpr hne
  constructor
  · rw [le_div_iff₀ hlen]
    calc lo * l.length = l.length • lo := by rw [nsmul_eq_mul, mul_comm]
      _ ≤ l.sum := List.card_nsmul_le_sum l lo (fun x hx => (h x hx).1)
  · rw [div_le_iff₀ hlen]
    calc l.sum ≤ l.length • hi := List.sum_le_card_nsmul l hi (fun x hx => (h x hx).2)
      _ = hi * l.length := by rw [nsmul_eq_mul, mul_comm]

theorem mem_strongRows (db : DB) (vid : ℤ) {x : ViewerTagValidation}
    (h : x ∈ strongRows db vid) :
    x ∈ db.viewerTagValidations ∧ x.viewer_id = vid
      ∧ 4 ≤ x.agreement_intensity := by
  unfold strongRows at h
  obtain ⟨hmem, hp⟩ := List.mem_filter.mp h
  have h1 := Bool.and_elim_left hp
  have h2 := Bool.and_elim_right hp
  exact ⟨hmem, by simpa using h1, by simpa using h2⟩

theorem mem_biasJoinRows (db : DB) (target : ℤ)
    {r : ViewerTagValidation × ExpertTag} (h : r ∈ biasJoinRows db target) :
    r.1 ∈ db.viewerTagValidations ∧ 4 ≤ r.1.agreement_intensity := by
  unfold biasJoinRows at h
  obtain ⟨v, hv, hmap⟩ := List.mem_filterMap.mp h
  cases hf : db.expertTags.find? (fun t => t.tag_id == v.tag_id) with
  | none => rw [hf] at hmap; simp at hmap
  | some t =>
    rw [hf] at hmap
    simp only [Option.map_some', Option.some.injEq] at hmap
    have hr1 : r.1 = v := by rw [← hmap]
    obtain ⟨hmem, _, hint⟩ := mem_strongRows db target hv
    rw [hr1]
    exact ⟨hmem, hint⟩

theorem mem_udfBias_grouped (db : DB) (target : ℤ) {row : BiasRow}
    (h : row ∈ udf_GetViewerStructuralBias db target) :
    row ∈ biasGrouped db target := by
  unfold udf_GetViewerStructuralBias at h
  exact (List.perm_insertionSort biasLE _).mem_iff.mp (List.take_subset _ _ h)

/-- C10: every row returned by `udf_GetViewerStructuralBias` has
`AverageIntensity` in `[4, 5]` and `ValidationCount ≥ 1`, given that all
stored `agreement_intensity` values lie in `1..5` (the schema `CHECK`
constraint): only validations with intensity `≥ 4` are aggregated, and
each group is non-empty. -/
theorem claim_C10 : ∀ (db : DB) (target : ℤ),
    (∀ x ∈ db.viewerTagValidations,
      1 ≤ x.agreement_intensity ∧ x.agreement_intensity ≤ 5) →
    ∀ row ∈ udf_GetViewerStructuralBias db target,
      4 ≤ row.AverageIntensity ∧ row.AverageIntensity ≤ 5
        ∧ 1 ≤ row.ValidationCount := by
  intro db target hbound row hrow
  have hg := mem_udfBias_grouped db target hrow
  unfold biasGrouped at hg
  obtain ⟨k, hk, hconstr⟩ := List.mem_map.mp hg
  obtain ⟨r0, hr0, hkey⟩ := List.mem_map.mp (List.mem_dedup.mp hk)
  have hr0g : r0 ∈ (biasJoinRows db target).filter
      (fun r => r.1.tag_id == k.1 && r.2.tag_name == k.2) := by
    refine List.mem_filter.mpr ⟨hr0, ?_⟩
    rw [← hkey]
    simp
  have hgne : (biasJoinRows db target).filter
      (fun r => r.1.tag_id == k.1 && r.2.tag_name == k.2) ≠ [] := by
    intro hnil
    rw [hnil] at hr0g
    simp at hr0g
  have hmapne : ((biasJoinRows db target).filter
      (fun r => r.1.tag_id == k.1 && r.2.tag_name == k.2)).map
        (fun r => (r.1.agreement_intensity : ℚ)) ≠ [] := by
    simpa using hgne
  have hbounds := sum_div_length_bounds _ 4 5 hmapne (by
    intro x hx
    obtain ⟨r, hrg, hrx⟩ := List.mem_map.mp hx
    have hrrows := (List.mem_filter.mp hrg).1
    obtain ⟨hmem, hint4⟩ := mem_biasJoinRows db target hrrows
    have hint5 := (hbound r.1 hmem).2
    constructor
    · rw [← hrx]; exact_mod_cast hint4
    · rw [← hrx]; exact_mod_cast hint5)
  rw [List.length_map] at hbounds
  rw [← hconstr]
  refine ⟨hbounds.1, hbounds.2, ?_⟩
  show 1 ≤ ((biasJoinRows db target).filter
    (fun r => r.1.tag_id == k.1 && r.2.tag_name == k.2)).length
  exact List.length_pos.mpr hgne

theorem claim_C10_witness :
    (∀ x ∈ dbBias.viewerTagValidations,
      1 ≤ x.agreement_intensity ∧ x.agreement_intensity ≤ 5) ∧
    (⟨1, "T", 5, 1⟩ : BiasRow) ∈ udf_GetViewerStructuralBias dbBias 1 ∧
    (4 ≤ (5 : ℚ) ∧ (5 : ℚ) ≤ 5 ∧ 1 ≤ (1 : ℕ)) :=
  ⟨by decide, by decide, claim_C10 dbBias 1 (by decide) ⟨1, "T", 5, 1⟩ (by decide)⟩

/-!
AffinityExplorer lemmas.
-/

theorem min_getD_const (l : List ℤ) (c : ℤ) (hne : l ≠ [])
    (h : ∀ x ∈ l, x = c) : (l.min?).getD 0 = c := by
  cases l with
  | nil => exact absurd rfl hne
  | cons a t =>
    have ha : a = c := h a (List.mem_cons_self a t)
    have haux : ∀ t' : List ℤ, (∀ x ∈ t', x = c) → t'.foldl min c = c := by
      intro t'
      induction t' with
      | nil => intro _; rfl
      | cons b u ih =>
        intro hb
        have hbc : b = c := hb b (List.mem_cons_self b u)
        rw [List.foldl_cons, hbc, min_self]
        exact ih (fun x hx => hb x (List.mem_cons_of_mem b hx))
    show (some (t.foldl min a)).getD 0 = c
    rw [ha]
    exact haux t (fun x hx => h x (List.mem_cons_of_mem a hx))

theorem mem_crewFinalRows_find? (db : DB) (target : ℤ)
    {r : MediaAsset × CrewMember} (h : r ∈ crewFinalRows db target) :
    db.mediaAssets.find? (fun a => a.asset_id == r.1.asset_id) = some r.1 := by
  unfold crewFinalRows at h
  obtain ⟨p, _, hp⟩ := List.mem_filterMap.mp (List.mem_of_mem_filter h)
  cases hf : db.mediaAssets.find? (fun a => a.asset_id == p.1) with
  | none => rw [hf] at hp; simp at hp
  | some a =>
    rw [hf] at hp
    cases hc : db.crewMembers.find? (fun c => c.crew_id == p.2) with
    | none => rw [hc] at hp; simp at hp
    | some c =>
      rw [hc] at hp
      simp only [Option.some_bind, Option.map_some', Option.some.injEq] at hp
      have hr1 : r.1 = a := by rw [← hp]
      have haid : a.asset_id = p.1 := by
        have := List.find?_some hf
        simpa using this
      rw [hr1, haid]
      exact hf

theorem mem_crewSuggestionGroups (db : DB) (target : ℤ)
    {r : CrewSuggestionGroup} (h : r ∈ crewSuggestionGroups db target) :
    r.minPopRank = assetIdxD db r.asset_id := by
  unfold crewSuggestionGroups at h
  obtain ⟨k, hk, hconstr⟩ := List.mem_map.mp h
  obtain ⟨r0, hr0, hkey⟩ := List.mem_map.mp (List.mem_dedup.mp hk)
  have hr0g : r0 ∈ (crewFinalRows db target).filter
      (fun s => s.1.asset_id == k.1 && s.1.title == k.2.1
        && s.2.full_name == k.2.2) := by
    refine List.mem_filter.mpr ⟨hr0, ?_⟩
    rw [← hkey]
    simp
  have hgne : (crewFinalRows db target).filter
      (fun s => s.1.asset_id == k.1 && s.1.title == k.2.1
        && s.2.full_name == k.2.2) ≠ [] := by
    intro hnil
    rw [hnil] at hr0g
    simp at hr0g
  -- every row in the group is resolved by the same primary-key lookup,
  -- so its asset record is determined by the group key
  have hsame : ∀ s ∈ (crewFinalRows db target).filter
      (fun s => s.1.asset_id == k.1 && s.1.title == k.2.1
        && s.2.full_name == k.2.2),
      s.1.popularity_rank_index = assetIdxD db k.1 := by
    intro s hs
    obtain ⟨hsrows, hsp⟩ := List.mem_filter.mp hs
    have hsid : s.1.asset_id = k.1 := by
      have := Bool.and_elim_left (Bool.and_elim_left hsp)
      simpa using this
    have hfind := mem_crewFinalRows_find? db target hsrows
    rw [hsid] at hfind
    unfold assetIdxD
    rw [hfind]
    rfl
  rw [← hconstr]
  show ((((crewFinalRows db target).filter
      (fun s => s.1.asset_id == k.1 && s.1.title == k.2.1
        && s.2.full_name == k.2.2)).map
        (fun s => s.1.popularity_rank_index)).min?).getD 0 = assetIdxD db k.1
  apply min_getD_const
  · simpa using hgne
  · intro x hx
    obtain ⟨s, hsg, hsx⟩ := List.mem_map.mp hx
    rw [← hsx]
    exact hsame s hsg

/-- C8: `udf_GetCrewAffinitySuggestions` returns at most 10 records, and
the returned sequence is ordered ascending by the suggested asset's
`popularity_rank_index` (more niche suggestions first). -/
theorem claim_C8 : ∀ (db : DB) (target : ℤ),
    (udf_GetCrewAffinitySuggestions db target).length ≤ 10 ∧
    (udf_GetCrewAffinitySuggestions db target).Pairwise
      (fun a b => assetIdxD db a.asset_id ≤ assetIdxD db b.asset_id) := by
  intro db target
  constructor
  · unfold udf_GetCrewAffinitySuggestions
    rw [List.length_map]
    exact List.length_take_le 10 _
  · unfold udf_GetCrewAffinitySuggestions
    rw [List.pairwise_map]
    have hsorted : (((crewSuggestionGroups db target).insertionSort
        crewSuggestionLE).take 10).Pairwise crewSuggestionLE :=
      (List.sorted_insertionSort crewSuggestionLE _).sublist
        (List.take_sublist 10 _)
    refine hsorted.imp_of_mem ?_
    intro a b ha hb hab
    have hga : a ∈ crewSuggestionGroups db target :=
      (List.perm_insertionSort crewSuggestionLE _).mem_iff.mp
        (List.take_subset _ _ ha)
    have hgb : b ∈ crewSuggestionGroups db target :=
      (List.perm_insertionSort crewSuggestionLE _).mem_iff.mp
        (List.take_subset _ _ hb)
    have hia := mem_crewSuggestionGroups db target hga
    have hib := mem_crewSuggestionGroups db target hgb
    rw [← hia, ← hib]
    exact hab

/-!
RecommendationBlender lemmas.
-/

theorem le_foldr_max (l : List ℚ) (init : ℚ) {x : ℚ} (h : x ∈ l) :
    x ≤ l.foldr max init := by
  induction l with
  | nil => simp at h
  | cons a t ih =>
    rw [List.foldr_cons]
    rcases List.mem_cons.mp h with rfl | h
    · exact le_max_left _ _
    · exact (ih h).trans (le_max_right a _)

theorem foldr_max_mem (l : List ℚ) (init : ℚ) :
    l.foldr max init = init ∨ l.foldr max init ∈ l := by
  induction l with
  | nil => exact Or.inl rfl
  | cons a t ih =>
    rw [List.foldr_cons]
    rcases max_choice a (t.foldr max init) with h | h
    · exact Or.inr (by rw [h]; exact List.mem_cons_self a t)
    · rw [h]
      rcases ih with h2 | h2
      · exact Or.inl h2
      · exact Or.inr (List.mem_cons_of_mem a h2)

theorem sum_div_length_lower (l : List ℚ) (lo : ℚ) (hne : l ≠ [])
    (h : ∀ x ∈ l, lo ≤ x) : lo ≤ l.sum / l.length := by
  have hlen : 0 < (l.length : ℚ) := by
    exact_mod_cast List.length_pos.mpr hne
  rw [le_div_iff₀ hlen]
  calc lo * l.length = l.length • lo := by rw [nsmul_eq_mul, mul_comm]
    _ ≤ l.sum := List.card_nsmul_le_sum l lo (fun x hx => h x hx)

theorem udfSimilar_count_pos (db : DB) (target : ℤ) {row : SimilarViewerRow}
    (h : row ∈ udf_GetSimilarViewers db target) : 0 < row.SharedTagCount := by
  have hg := mem_udfSimilar_grouped db target h
  unfold similarGrouped at hg
  obtain ⟨w, hw, hconstr⟩ := List.mem_map.mp hg
  obtain ⟨r, hr, hrid⟩ := List.mem_map.mp (List.mem_dedup.mp hw)
  have hrg : r ∈ (similarJoinRows db target).filter (fun x => x.viewer_id == w) :=
    List.mem_filter.mpr ⟨hr, by simp [hrid]⟩
  rw [← hconstr]
  show 0 < ((similarJoinRows db target).filter (fun x => x.viewer_id == w)).length
  exact List.length_pos.mpr (List.ne_nil_of_mem hrg)

theorem mem_svrJoinRows (db : DB) (target : ℤ)
    {r : SimilarViewerRow × ViewingLog} (h : r ∈ svrJoinRows db target) :
    r.1 ∈ udf_GetSimilarViewers db target ∧ 7 ≤ r.2.critical_rating := by
  unfold svrJoinRows at h
  obtain ⟨sv, hsv, hr⟩ := List.mem_flatMap.mp h
  obtain ⟨l, hl, hleq⟩ := List.mem_map.mp hr
  have h1 : r.1 = sv := by rw [← hleq]
  have h2 : r.2 = l := by rw [← hleq]
  have h7 := Bool.and_elim_right (List.mem_filter.mp hl).2
  rw [h1, h2]
  exact ⟨hsv, by simpa using h7⟩

theorem mem_cbrJoinRows (db : DB) (target : ℤ) {v : ViewerTagValidation}
    (h : v ∈ cbrJoinRows db target) : v ∈ db.viewerTagValidations := by
  unfold cbrJoinRows at h
  obtain ⟨sb, _, hv⟩ := List.mem_flatMap.mp h
  exact List.mem_of_mem_filter hv

theorem mem_SimilarViewerRecs_pos (db : DB) (target : ℤ) {p : ℤ × ℚ}
    (h : p ∈ SimilarViewerRecs db target) : 0 < p.2 := by
  unfold SimilarViewerRecs at h
  obtain ⟨a, ha, hconstr⟩ := List.mem_map.mp h
  obtain ⟨r0, hr0, hr0a⟩ := List.mem_map.mp (List.mem_dedup.mp ha)
  have hr0g : r0 ∈ (svrJoinRows db target).filter (fun r => r.2.asset_id == a) :=
    List.mem_filter.mpr ⟨hr0, by simp [hr0a]⟩
  have hgne : (svrJoinRows db target).filter (fun r => r.2.asset_id == a) ≠ [] :=
    List.ne_nil_of_mem hr0g
  have hlow := sum_div_length_lower
    (((svrJoinRows db target).filter (fun r => r.2.asset_id == a)).map
      (fun r => (r.2.critical_rating : ℚ) * (r.1.SharedTagCount : ℚ)))
    7 (by simpa using hgne) (by
      intro x hx
      obtain ⟨r, hrg, hrx⟩ := List.mem_map.mp hx
      obtain ⟨hsv, h7⟩ := mem_svrJoinRows db target (List.mem_of_mem_filter hrg)
      have hc := udfSimilar_count_pos db target hsv
      have hr7 : (7 : ℚ) ≤ (r.2.critical_rating : ℚ) := by exact_mod_cast h7
      have hc1 : (1 : ℚ) ≤ (r.1.SharedTagCount : ℚ) := by exact_mod_cast hc
      rw [← hrx]
      calc (7 : ℚ) = 7 * 1 := by ring
        _ ≤ (r.2.critical_rating : ℚ) * (r.1.SharedTagCount : ℚ) :=
            mul_le_mul hr7 hc1 (by norm_num) (by linarith))
  rw [List.length_map] at hlow
  have hp2 : p.2 = (((svrJoinRows db target).filter
      (fun r => r.2.asset_id == a)).map
        (fun r => (r.2.critical_rating : ℚ) * (r.1.SharedTagCount : ℚ))).sum
      / (((svrJoinRows db target).filter (fun r => r.2.asset_id == a)).length : ℚ) := by
    rw [← hconstr]
  rw [hp2]
  linarith [hlow]

theorem mem_ContentBiasRecs_pos (db : DB) (target : ℤ)
    (hb : ∀ x ∈ db.viewerTagValidations, 1 ≤ x.agreement_intensity)
    {p : ℤ × ℚ} (h : p ∈ ContentBiasRecs db target) : 0 < p.2 := by
  unfold ContentBiasRecs at h
  obtain ⟨a, ha, hconstr⟩ := List.mem_map.mp h
  obtain ⟨r0, hr0, hr0a⟩ := List.mem_map.mp (List.mem_dedup.mp ha)
  have hr0g : r0 ∈ (cbrJoinRows db target).filter (fun v => v.asset_id == a) :=
    List.mem_filter.mpr ⟨hr0, by simp [hr0a]⟩
  have hgne : (cbrJoinRows db target).filter (fun v => v.asset_id == a) ≠ [] :=
    List.ne_nil_of_mem hr0g
  have hlen : 0 < ((((cbrJoinRows db target).filter
      (fun v => v.asset_id == a)).map
        (fun v => (v.agreement_intensity : ℚ))).length : ℚ) := by
    rw [List.length_map]
    exact_mod_cast List.length_pos.mpr hgne
  have hsum : (((cbrJoinRows db target).filter
      (fun v => v.asset_id == a)).map
        (fun v => (v.agreement_intensity : ℚ))).length • (1 : ℚ)
      ≤ (((cbrJoinRows db target).filter (fun v => v.asset_id == a)).map
          (fun v => (v.agreement_intensity : ℚ))).sum := by
    apply List.card_nsmul_le_sum
    intro x hx
    obtain ⟨v, hvg, hvx⟩ := List.mem_map.mp hx
    have hv1 := hb v (mem_cbrJoinRows db target (List.mem_of_mem_filter hvg))
    rw [← hvx]
    exact_mod_cast hv1
  rw [nsmul_eq_mul, mul_one] at hsum
  have hp2 : p.2 = (((cbrJoinRows db target).filter
      (fun v => v.asset_id == a)).map (fun v => (v.agreement_intensity : ℚ))).sum := by
    rw [← hconstr]
  rw [hp2]
  linarith [hlen, hsum]

theorem mem_Combined_pos (db : DB) (target : ℤ)
    (hb : ∀ x ∈ db.viewerTagValidations, 1 ≤ x.agreement_intensity)
    {c : CombinedRec} (h : c ∈ CombinedRecommendations db target) :
    0 < c.FinalRecScore := by
  unfold CombinedRecommendations at h
  obtain ⟨a, _, hfa⟩ := List.mem_filterMap.mp h
  by_cases hseen : (db.viewingLogs.any
      (fun l => l.viewer_id == target && l.asset_id == a.asset_id)) = true
  · rw [if_pos hseen] at hfa
    exact absurd hfa (by simp)
  · rw [if_neg hseen] at hfa
    cases hsv : (SimilarViewerRecs db target).find? (fun p => p.1 == a.asset_id) with
    | some s =>
      have hs : 0 < s.2 :=
        mem_SimilarViewerRecs_pos db target (List.mem_of_find?_eq_some hsv)
      cases hcb : (ContentBiasRecs db target).find? (fun p => p.1 == a.asset_id) with
      | some t =>
        rw [hsv, hcb] at hfa
        have ht : 0 < t.2 :=
          mem_ContentBiasRecs_pos db target hb (List.mem_of_find?_eq_some hcb)
        have hC : c.FinalRecScore = s.2 * (6 / 10) + t.2 * (4 / 10) := by
          rw [← Option.some_inj.mp hfa]
          rfl
        rw [hC]
        have h1 : 0 < s.2 * (6 / 10 : ℚ) := mul_pos hs (by norm_num)
        have h2 : 0 < t.2 * (4 / 10 : ℚ) := mul_pos ht (by norm_num)
        linarith
      | none =>
        rw [hsv, hcb] at hfa
        have hC : c.FinalRecScore = s.2 * (6 / 10) + 0 := by
          rw [← Option.some_inj.mp hfa]
          rfl
        rw [hC]
        have h1 : 0 < s.2 * (6 / 10 : ℚ) := mul_pos hs (by norm_num)
        linarith
    | none =>
      cases hcb : (ContentBiasRecs db target).find? (fun p => p.1 == a.asset_id) with
      | some t =>
        rw [hsv, hcb] at hfa
        have ht : 0 < t.2 :=
          mem_ContentBiasRecs_pos db target hb (List.mem_of_find?_eq_some hcb)
        have hC : c.FinalRecScore = 0 + t.2 * (4 / 10) := by
          rw [← Option.some_inj.mp hfa]
          rfl
        rw [hC]
        have h2 : 0 < t.2 * (4 / 10 : ℚ) := mul_pos ht (by norm_num)
        linarith
      | none =>
        rw [hsv, hcb] at hfa
        exact Option.noConfusion hfa

theorem mem_Combined_not_seen (db : DB) (target : ℤ) {c : CombinedRec}
    (h : c ∈ CombinedRecommendations db target) :
    ∀ l ∈ db.viewingLogs, ¬(l.viewer_id = target ∧ l.asset_id = c.asset_id) := by
  unfold CombinedRecommendations at h
  obtain ⟨a, _, hfa⟩ := List.mem_filterMap.mp h
  by_cases hseen : (db.viewingLogs.any
      (fun l => l.viewer_id == target && l.asset_id == a.asset_id)) = true
  · rw [if_pos hseen] at hfa
    exact absurd hfa (by simp)
  · rw [if_neg hseen] at hfa
    have hcaid : c.asset_id = a.asset_id := by
      cases hsv : (SimilarViewerRecs db target).find? (fun p => p.1 == a.asset_id) with
      | some s =>
        cases hcb : (ContentBiasRecs db target).find? (fun p => p.1 == a.asset_id) with
        | some t =>
          rw [hsv, hcb] at hfa
          rw [← Option.some_inj.mp hfa]
        | none =>
          rw [hsv, hcb] at hfa
          rw [← Option.some_inj.mp hfa]
      | none =>
        cases hcb : (ContentBiasRecs db target).find? (fun p => p.1 == a.asset_id) with
        | some t =>
          rw [hsv, hcb] at hfa
          rw [← Option.some_inj.mp hfa]
        | none =>
          rw [hsv, hcb] at hfa
          exact Option.noConfusion hfa
    intro l hl
    rintro ⟨h1, h2⟩
    apply hseen
    rw [List.any_eq_true]
    refine ⟨l, hl, ?_⟩
    have h2a : l.asset_id = a.asset_id := h2.trans hcaid
    simp [h1, h2a]

/-- C4: for every viewer whose `udf_GetNicheRecommendations` result is
non-empty (with all stored `agreement_intensity` values at least 1, the
schema `CHECK` constraint), some returned row has `RelatabilityScore`
exactly 100 and every returned `RelatabilityScore` lies in `[0, 100]` —
so the maximum returned `RelatabilityScore` equals 100. -/
theorem claim_C4 : ∀ (db : DB) (target : ℤ),
    (∀ x ∈ db.viewerTagValidations, 1 ≤ x.agreement_intensity) →
    udf_GetNicheRecommendations db target ≠ [] →
    (∃ r ∈ udf_GetNicheRecommendations db target, r.RelatabilityScore = 100) ∧
    (∀ r ∈ udf_GetNicheRecommendations db target,
      0 ≤ r.RelatabilityScore ∧ r.RelatabilityScore ≤ 100) := by
  intro db target hb hne
  cases hs : (CombinedRecommendations db target).insertionSort nicheRecLE with
  | nil =>
    exfalso
    apply hne
    unfold udf_GetNicheRecommendations
    rw [hs]
    rfl
  | cons h0 t =>
    have hperm := List.perm_insertionSort nicheRecLE (CombinedRecommendations db target)
    have hmemsort : ∀ x, x ∈ h0 :: t → x ∈ CombinedRecommendations db target := by
      intro x hx
      apply hperm.mem_iff.mp
      rw [hs]
      exact hx
    have hm0 : h0 ∈ CombinedRecommendations db target :=
      hmemsort h0 (List.mem_cons_self h0 t)
    have hpos : ∀ c ∈ CombinedRecommendations db target, 0 < c.FinalRecScore :=
      fun c hc => mem_Combined_pos db target hb hc
    have hsorted : (h0 :: t).Pairwise nicheRecLE := by
      rw [← hs]
      exact List.sorted_insertionSort nicheRecLE _
    have hhead : ∀ x ∈ t, x.FinalRecScore ≤ h0.FinalRecScore := by
      intro x hx
      have hrel := (List.pairwise_cons.mp hsorted).1 x hx
      unfold nicheRecLE at hrel
      rcases hrel with h | ⟨h, _⟩
      · exact le_of_lt h
      · exact le_of_eq h.symm
    have hge_all : ∀ c ∈ CombinedRecommendations db target,
        c.FinalRecScore ≤ h0.FinalRecScore := by
      intro c hc
      have hcs : c ∈ h0 :: t := by
        have := hperm.mem_iff.mpr hc
        rwa [hs] at this
      rcases List.mem_cons.mp hcs with rfl | hct
      · exact le_refl _
      · exact hhead c hct
    have hM : maxFinalScore db target = h0.FinalRecScore := by
      unfold maxFinalScore
      apply le_antisymm
      · rcases foldr_max_mem ((CombinedRecommendations db target).map
            (fun c => c.FinalRecScore)) 0 with h | h
        · rw [h]
          exact le_of_lt (hpos h0 hm0)
        · obtain ⟨c, hc, hceq⟩ := List.mem_map.mp h
          rw [← hceq]
          exact hge_all c hc
      · exact le_foldr_max _ 0 (List.mem_map_of_mem _ hm0)
    have hMpos : 0 < maxFinalScore db target := by
      rw [hM]
      exact hpos h0 hm0
    have hout : udf_GetNicheRecommendations db target
        = ((h0 :: t).take 20).map (fun c => NicheRec.mk c.asset_id c.title
            (c.FinalRecScore / maxFinalScore db target * 100)) := by
      unfold udf_GetNicheRecommendations
      rw [hs]
    constructor
    · refine ⟨NicheRec.mk h0.asset_id h0.title
        (h0.FinalRecScore / maxFinalScore db target * 100), ?_, ?_⟩
      · rw [hout]
        rw [show (h0 :: t).take 20 = h0 :: t.take 19 from rfl, List.map_cons]
        exact List.mem_cons_self _ _
      · show h0.FinalRecScore / maxFinalScore db target * 100 = 100
        rw [hM, div_self (ne_of_gt (hpos h0 hm0)), one_mul]
    · intro r hr
      rw [hout] at hr
      obtain ⟨c, hc, hceq⟩ := List.mem_map.mp hr
      have hcmem : c ∈ CombinedRecommendations db target :=
        hmemsort c (List.take_subset _ _ hc)
      have h1 := hpos c hcmem
      have h2 : c.FinalRecScore ≤ maxFinalScore db target := by
        rw [hM]
        exact hge_all c hcmem
      rw [← hceq]
      constructor
      · show (0 : ℚ) ≤ c.FinalRecScore / maxFinalScore db target * 100
        have hnn : (0 : ℚ) ≤ c.FinalRecScore / maxFinalScore db target :=
          div_nonneg (le_of_lt h1) (le_of_lt hMpos)
        exact mul_nonneg hnn (by norm_num)
      · show c.FinalRecScore / maxFinalScore db target * 100 ≤ 100
        have hd1 : c.FinalRecScore / maxFinalScore db target ≤ 1 :=
          (div_le_one hMpos).mpr h2
        calc c.FinalRecScore / maxFinalScore db target * 100 ≤ 1 * 100 :=
            mul_le_mul_of_nonneg_right hd1 (by norm_num)
          _ = 100 := one_mul 100

theorem claim_C4_witness :
    (∀ x ∈ dbRec.viewerTagValidations, 1 ≤ x.agreement_intensity) ∧
    udf_GetNicheRecommendations dbRec 1 ≠ [] ∧
    ((∃ r ∈ udf_GetNicheRecommendations dbRec 1, r.RelatabilityScore = 100) ∧
     (∀ r ∈ udf_GetNicheRecommendations dbRec 1,
       0 ≤ r.RelatabilityScore ∧ r.RelatabilityScore ≤ 100)) :=
  ⟨by decide, by decide, claim_C4 dbRec 1 (by decide) (by decide)⟩

/-- C5: no asset returned by `udf_GetNicheRecommendations` appears in the
target viewer's `ViewingLog` — already-seen assets are excluded by the
`NOT IN` filter of the `CombinedRecommendations` CTE. -/
theorem claim_C5 : ∀ (db : DB) (target : ℤ) (r : NicheRec),
    r ∈ udf_GetNicheRecommendations db target →
    ∀ l ∈ db.viewingLogs, l.viewer_id = target → l.asset_id ≠ r.asset_id := by
  intro db target r hr l hl hlv
  unfold udf_GetNicheRecommendations at hr
  obtain ⟨c, hc, hceq⟩ := List.mem_map.mp hr
  have hcmem : c ∈ CombinedRecommendations db target :=
    (List.perm_insertionSort nicheRecLE _).mem_iff.mp (List.take_subset _ _ hc)
  have hns := mem_Combined_not_seen db target hcmem l hl
  intro heq
  apply hns
  refine ⟨hlv, ?_⟩
  rw [heq, ← hceq]

theorem claim_C5_witness :
    (⟨11, "B", 100⟩ : NicheRec) ∈ udf_GetNicheRecommendations dbRec 1 ∧
    (⟨1, 1, 10, 9, 4⟩ : ViewingLog) ∈ dbRec.viewingLogs ∧
    (⟨1, 1, 10, 9, 4⟩ : ViewingLog).asset_id ≠ (⟨11, "B", 100⟩ : NicheRec).asset_id :=
  ⟨by decide, by decide,
    claim_C5 dbRec 1 ⟨11, "B", 100⟩ (by decide) ⟨1, 1, 10, 9, 4⟩ (by decide) rfl⟩

/-- C7: every division in the engine is guarded — every `ViewerScores`
row has a positive, hence non-zero, `TotalLogs` divisor (zero-log viewers
produce no row and keep their default); and in
`udf_GetNicheRecommendations` the normalisation divisor
`MAX(FinalRecScore) OVER ()` is non-zero whenever any candidate row
exists (given the intensity `CHECK` constraint), while an empty candidate
set yields empty output with no division evaluated. -/
theorem claim_C7 :
    (∀ (db : DB) (s : ViewerScore), s ∈ ViewerScores db →
      0 < s.TotalLogs ∧ ((s.TotalLogs : ℚ) ≠ 0)) ∧
    (∀ (db : DB) (target : ℤ),
      (∀ x ∈ db.viewerTagValidations, 1 ≤ x.agreement_intensity) →
      CombinedRecommendations db target ≠ [] →
      maxFinalScore db target ≠ 0) ∧
    (∀ (db : DB) (target : ℤ), CombinedRecommendations db target = [] →
      udf_GetNicheRecommendations db target = []) := by
  refine ⟨?_, ?_, ?_⟩
  · intro db s hs
    obtain ⟨hne, hrow⟩ := mem_ViewerScores db hs
    have hpos : 0 < s.TotalLogs := by
      rw [hrow]
      show 0 < (joinedLogs db s.viewer_id).length
      exact List.length_pos.mpr hne
    exact ⟨hpos, by exact_mod_cast Nat.pos_iff_ne_zero.mp hpos⟩
  · intro db target hb hne
    obtain ⟨c, hc⟩ := List.exists_mem_of_ne_nil _ hne
    have hcp := mem_Combined_pos db target hb hc
    have hle : c.FinalRecScore ≤ maxFinalScore db target :=
      le_foldr_max _ 0 (List.mem_map_of_mem _ hc)
    exact ne_of_gt (lt_of_lt_of_le hcp hle)
  · intro db target h
    unfold udf_GetNicheRecommendations
    rw [h]
    rfl

theorem claim_C7_witness :
    ((⟨1, 54 / 25, 1⟩ : ViewerScore) ∈ ViewerScores dbScoreA ∧
      (0 < (⟨1, 54 / 25, 1⟩ : ViewerScore).TotalLogs ∧
        (((⟨1, 54 / 25, 1⟩ : ViewerScore).TotalLogs : ℚ) ≠ 0))) ∧
    ((∀ x ∈ dbRec.viewerTagValidations, 1 ≤ x.agreement_intensity) ∧
      CombinedRecommendations dbRec 1 ≠ [] ∧ maxFinalScore dbRec 1 ≠ 0) ∧
    (CombinedRecommendations dbPrevScore 1 = [] ∧
      udf_GetNicheRecommendations dbPrevScore 1 = []) :=
  ⟨⟨by decide, claim_C7.1 dbScoreA ⟨1, 54 / 25, 1⟩ (by decide)⟩,
   ⟨by decide, by decide, claim_C7.2.1 dbRec 1 (by decide) (by decide)⟩,
   ⟨by decide, claim_C7.2.2 dbPrevScore 1 (by decide)⟩⟩

/-- Sanity evaluation of the AffinityExplorer pipeline on `dbCrew`: the
seen asset 10 is excluded and the two unseen assets of the highly rated
director are returned ascending by `popularity_rank_index` (25, then
40). -/
theorem crewAffinity_dbCrew_eval :
    udf_GetCrewAffinitySuggestions dbCrew 1
      = [⟨11, "B", "D"⟩, ⟨12, "C", "D"⟩] := by
  decide
